import Mathlib

/-!
# Verification of the Dark Web Monitor backend

A shallow embedding in Lean 4 of the breach-ingestion and alerting core of
`src/backend/server.py` (FastAPI + MongoDB + HaveIBeenPwned client), together
with proofs of the specified properties.

Modelling conventions:
  * MongoDB collections are lists of records in insertion (natural) order;
    `update_one(filter, set, upsert=True)` replaces the first matching record
    in place or appends; `find` filters in order; `.limit(n)` is `List.take n`.
  * `str(uuid.uuid4())` is modelled by a counter threaded through the state:
    the n-th draw yields `mkUuid n`, a fresh identifier.
  * `datetime.now()` is an explicit `now : Nat` parameter (an abstract clock).
  * The HTTP provider call `requests.get(...)` is an explicit
    `ProviderResponse` argument: either a raised transport/timeout exception
    (carrying `str(e)`) or an HTTP response with a status code and JSON body.
  * Python `str.lower` is `Char.toLower` mapped over the characters;
    `needle in hay` on strings is the contiguous-substring test `containsSub`.
  * `datetime.fromisoformat` on HIBP `BreachDate` strings (`YYYY-MM-DD`) is
    modelled by `parseIsoDate`, which accepts exactly 4-digit-year,
    2-digit-month/day dashed dates with fields in calendar-like ranges, and
    fails (the Python code raises `ValueError`) otherwise.
  * Python functions that catch all exceptions are total Lean functions; their
    error returns are explicit constructors.
-/

/-- Python `list.isPrefixOf`-style check: `charsPre p l` is true iff `p` is a
prefix of `l` (used to implement the substring test). -/
def charsPre : List Char → List Char → Bool
  | [], _ => true
  | _ :: _, [] => false
  | a :: as, b :: bs => a == b && charsPre as bs

/-- Python `needle in hay` on strings: `containsSub hay needle` is true iff
`needle` occurs contiguously in `hay` (the empty needle occurs in every
string, as in Python). -/
def containsSub : List Char → List Char → Bool
  | [], needle => needle.isEmpty
  | c :: rest, needle => charsPre needle (c :: rest) || containsSub rest needle

/-- Python `str.lower()` (ASCII case folding on the character list). -/
def lowerChars (l : List Char) : List Char := l.map Char.toLower

/-- A calendar date as produced by `datetime.fromisoformat` on a
date-only string. -/
structure Date where
  year : Nat
  month : Nat
  day : Nat
deriving DecidableEq, Repr

/-- Value of a non-empty all-digit character list, else `none`
(models `int` parsing inside `fromisoformat`). -/
def digitsVal : List Char → Option Nat
  | [] => none
  | l =>
    if l.all (fun c => c.isDigit) then
      some (l.foldl (fun n c => n * 10 + (c.toNat - 48)) 0)
    else none

/-- Split a character list on the dash character (groups between dashes). -/
def splitDash : List Char → List (List Char)
  | [] => [[]]
  | c :: rest =>
    if c = '-' then [] :: splitDash rest
    else
      match splitDash rest with
      | [] => [[c]]
      | g :: gs => (c :: g) :: gs

/-- `datetime.fromisoformat` restricted to the `YYYY-MM-DD` shapes that occur
as HIBP `BreachDate` values: exactly three dash-separated all-digit groups of
widths 4, 2, 2, with month in 1..12 and day in 1..31; any other string makes
the Python call raise `ValueError`, modelled here as `none`. -/
def parseIsoDate (s : String) : Option Date :=
  match splitDash s.data with
  | [y, m, d] =>
    match digitsVal y, digitsVal m, digitsVal d with
    | some yn, some mn, some dn =>
      if y.length = 4 ∧ m.length = 2 ∧ d.length = 2 ∧
          1 ≤ mn ∧ mn ≤ 12 ∧ 1 ≤ dn ∧ dn ≤ 31 then
        some ⟨yn, mn, dn⟩
      else none
    | _, _, _ => none
  | _ => none

/-- A raw breach entry of the provider's JSON catalog
(`GET https://haveibeenpwned.com/api/v3/breaches`). Each field is optional,
modelling Python `dict.get` with a default. -/
structure RawBreach where
  Name : Option String := none
  Domain : Option String := none
  PwnCount : Option Nat := none
  BreachDate : Option String := none
  DataClasses : Option (List String) := none
  Description : Option String := none
  IsVerified : Option Bool := none
deriving DecidableEq, Repr

/-- A stored document of the `breaches` collection, as built by
`get_domain_breaches` (server.py lines 136-147). -/
structure BreachRecord where
  id : String
  breach_name : String
  domain : String
  emails_compromised : Nat
  breach_date : Date
  data_classes : List String
  description : String
  verified : Bool
  source : String
  created_at : Nat
deriving DecidableEq, Repr

/-- `str(uuid.uuid4())` modelled as the n-th fresh identifier. -/
def mkUuid (n : Nat) : String := "uuid-" ++ toString n

/-- The domain filter of `get_domain_breaches` (server.py line 130):
`domain.lower() in breach.get('Domain', '').lower()`. -/
def domMatch (domain : String) (b : RawBreach) : Bool :=
  containsSub (lowerChars (b.Domain.getD "").data) (lowerChars domain.data)

/-- Whether normalizing this entry's breach date succeeds
(`datetime.fromisoformat(breach.get('BreachDate', '2024-01-01'))` does not
raise). -/
def dateOk (b : RawBreach) : Bool :=
  (parseIsoDate (b.BreachDate.getD "2024-01-01")).isSome

/-- Field normalization of one matched entry (server.py lines 136-147):
defaults for every absent field, fixed fallback date `2024-01-01` for an
absent `BreachDate`; `none` when the date string is present but unparseable
(the Python code raises `ValueError` there). -/
def normalizeBreach (uuid : String) (now : Nat) (b : RawBreach) :
    Option BreachRecord :=
  match parseIsoDate (b.BreachDate.getD "2024-01-01") with
  | none => none
  | some d =>
    some
      { id := uuid
        breach_name := b.Name.getD ""
        domain := b.Domain.getD ""
        emails_compromised := b.PwnCount.getD 0
        breach_date := d
        data_classes := b.DataClasses.getD []
        description := b.Description.getD ""
        verified := b.IsVerified.getD false
        source := "HaveIBeenPwned"
        created_at := now }

/-- `breaches_collection.update_one({breach_name}, {$set: all fields},
upsert=True)` (server.py lines 150-154): replace the first stored record
with the same `breach_name` in place, or append when absent. -/
def upsertBreach (r : BreachRecord) : List BreachRecord → List BreachRecord
  | [] => [r]
  | s :: rest =>
    if s.breach_name == r.breach_name then r :: rest
    else s :: upsertBreach r rest

/-- The upsert loop of `get_domain_breaches` (server.py lines 134-154): draw a
uuid and normalize each matched entry in order, upserting into the store; on
the first entry whose date string fails to parse, the Python `ValueError`
escapes the loop (prior upserts remain committed) — modelled by returning the
store so far together with the exception message `str(e)`. -/
def upsertMatches (now : Nat) :
    Nat → List RawBreach → List BreachRecord →
    List BreachRecord × Nat × Option String
  | ctr, [], store => (store, ctr, none)
  | ctr, b :: rest, store =>
    match normalizeBreach (mkUuid ctr) now b with
    | none =>
      (store, ctr + 1,
        some ("Invalid isoformat string: " ++ b.BreachDate.getD "2024-01-01"))
    | some r => upsertMatches now (ctr + 1) rest (upsertBreach r store)

/-- Outcome of the provider call `requests.get(f"HIBP/breaches", timeout=10)`:
either a raised exception (timeout/transport, carrying `str(e)`) or an HTTP
response with status code and decoded JSON catalog. -/
inductive ProviderResponse where
  | failure (msg : String)
  | http (status : Nat) (catalog : List RawBreach)
deriving DecidableEq, Repr

/-- The JSON body returned by `get_domain_breaches`: the matched (raw,
pre-normalization) entries, their count, and the optional `message` /
`error` keys of the two degraded returns. -/
structure ScanResult where
  breaches : List RawBreach
  count : Nat
  message : Option String := none
  error : Option String := none
deriving DecidableEq, Repr

/-- State touched by a single-domain scan: the `breaches` collection and the
uuid supply. -/
structure ScanState where
  breaches : List BreachRecord
  uuidCtr : Nat
deriving DecidableEq, Repr

/-- `get_domain_breaches(domain)` (server.py lines 117-161). The whole body is
wrapped in `try/except Exception`, so the endpoint never raises: a transport
failure returns `{breaches: [], count: 0, error: str(e)}`; a non-200 status
returns `{breaches: [], count: 0, message: "API rate limit or error"}`; a 200
response filters the catalog by case-insensitive domain substring, upserts
every match, and returns the matches with their count — unless a matched
entry's date string is unparseable, in which case the raised `ValueError`
is caught by the same handler and the error return is produced (with the
upserts made so far still committed). -/
def get_domain_breaches (now : Nat) (resp : ProviderResponse)
    (domain : String) (st : ScanState) : ScanState × ScanResult :=
  match resp with
  | .failure msg =>
    (st, { breaches := [], count := 0, error := some msg })
  | .http status catalog =>
    if status = 200 then
      let domain_breaches := catalog.filter (domMatch domain)
      match upsertMatches now st.uuidCtr domain_breaches st.breaches with
      | (store, ctr, none) =>
        ({ breaches := store, uuidCtr := ctr },
         { breaches := domain_breaches, count := domain_breaches.length })
      | (store, ctr, some emsg) =>
        ({ breaches := store, uuidCtr := ctr },
         { breaches := [], count := 0, error := some emsg })
    else
      (st, { breaches := [], count := 0,
             message := some "API rate limit or error" })

/-- A document of the `monitored_domains` collection (server.py lines
166-172). `mongoId` is the MongoDB-generated `_id`; `id` is the uuid field
of the record. -/
structure MonitoredDomainRec where
  mongoId : String
  id : String
  domain : String
  email_patterns : List String
  created_at : Nat
  status : String
deriving DecidableEq, Repr

/-- A document of the `alerts` collection (server.py lines 255-263).
`dismissed_at` is absent until a dismissal sets it. -/
structure Alert where
  id : String
  domain : String
  breach_name : String
  severity : String
  message : String
  created_at : Nat
  status : String
  dismissed_at : Option Nat := none
deriving DecidableEq, Repr

/-- The full persistent state of the application: the three MongoDB
collections plus the uuid supply. -/
structure AppState where
  breaches : List BreachRecord
  domains : List MonitoredDomainRec
  alerts : List Alert
  uuidCtr : Nat
deriving DecidableEq, Repr

/-- One entry of the `results` list of the comprehensive-scan report
(server.py lines 246-250 and 267-271): a success entry carries
`breaches_found`, an error entry carries `error`. -/
structure ScanEntry where
  domain : String
  breaches_found : Option Nat := none
  status : String
  error : Option String := none
deriving DecidableEq, Repr

/-- The per-domain body of `comprehensive_scan` (server.py lines 241-271):
scan the domain, append a report entry, and when the scan's count is
positive insert exactly one alert whose severity is `"high"` when the count
exceeds 5 and `"medium"` otherwise. The surrounding `try/except` is
unreachable because `get_domain_breaches` catches every exception itself, so
the entry status is always `"success"`. -/
def comprehensiveScanStep (now : Nat) (resp : ProviderResponse)
    (domain_name : String) (st : AppState) : AppState × ScanEntry :=
  let scanned := get_domain_breaches now resp domain_name
    { breaches := st.breaches, uuidCtr := st.uuidCtr }
  let result := scanned.2
  let entry : ScanEntry :=
    { domain := domain_name, breaches_found := some result.count
      status := "success" }
  if result.count > 0 then
    let alert : Alert :=
      { id := mkUuid scanned.1.uuidCtr
        domain := domain_name
        breach_name := "Multiple breaches detected"
        severity := if result.count > 5 then "high" else "medium"
        message := "Found " ++ toString result.count ++ " breaches for "
          ++ domain_name
        created_at := now
        status := "active" }
    ({ st with
        breaches := scanned.1.breaches
        uuidCtr := scanned.1.uuidCtr + 1
        alerts := st.alerts ++ [alert] },
     entry)
  else
    ({ st with
        breaches := scanned.1.breaches
        uuidCtr := scanned.1.uuidCtr },
     entry)

/-- The iteration of `comprehensive_scan` over the snapshot of monitored
domains, accumulating the report entries in order. `resps` gives the
provider's response to the call made for each domain. -/
def comprehensiveScanGo (now : Nat) (resps : String → ProviderResponse) :
    List MonitoredDomainRec → AppState → List ScanEntry →
    AppState × List ScanEntry
  | [], st, acc => (st, acc)
  | d :: rest, st, acc =>
    let step := comprehensiveScanStep now (resps d.domain) d.domain st
    comprehensiveScanGo now resps rest step.1 (acc ++ [step.2])

/-- `comprehensive_scan()` (server.py lines 234-280): scan every monitored
domain independently and return the final state with the report's
`results` list (`scanned_domains` is its length). -/
def comprehensive_scan (now : Nat) (resps : String → ProviderResponse)
    (st : AppState) : AppState × List ScanEntry :=
  comprehensiveScanGo now resps st.domains st []

/-- Response body of `add_domain_monitor`. The code distinguishes the two
outcomes only through the `message` string. -/
structure RegisterResult where
  message : String
  id : String
deriving DecidableEq, Repr

/-- The spec's `created` flag, which the code signals through the message
string: `true` exactly for the "Domain monitoring activated" response. -/
def RegisterResult.created (r : RegisterResult) : Bool :=
  r.message == "Domain monitoring activated"

/-- `add_domain_monitor(domain_data)` (server.py lines 163-187): draw a uuid,
look the domain up by exact match; if present, return the existing record's
Mongo `_id` with the "already being monitored" message and change nothing;
otherwise insert a new record with status `"active"`, run one initial
`get_domain_breaches` scan whose returned value is discarded (its store
writes persist; it cannot raise), and return the new `_id`. `newMongoId` is
the MongoDB-generated `_id` of the inserted document. -/
def add_domain_monitor (now : Nat) (resp : ProviderResponse)
    (domain : String) (email_patterns : List String) (newMongoId : String)
    (st : AppState) : AppState × RegisterResult :=
  let domain_id := mkUuid st.uuidCtr
  match st.domains.find? (fun d => d.domain == domain) with
  | some existing =>
    ({ st with uuidCtr := st.uuidCtr + 1 },
     { message := "Domain already being monitored", id := existing.mongoId })
  | none =>
    let domain_record : MonitoredDomainRec :=
      { mongoId := newMongoId
        id := domain_id
        domain := domain
        email_patterns := email_patterns
        created_at := now
        status := "active" }
    let st2 : AppState :=
      { st with
          domains := st.domains ++ [domain_record]
          uuidCtr := st.uuidCtr + 1 }
    let scanned := get_domain_breaches now resp domain
      { breaches := st2.breaches, uuidCtr := st2.uuidCtr }
    ({ st2 with
        breaches := scanned.1.breaches
        uuidCtr := scanned.1.uuidCtr },
     { message := "Domain monitoring activated", id := newMongoId })

/-- The characters of the first `@`-delimited segment of a list. -/
def takeUntilAt : List Char → List Char
  | [] => []
  | c :: rest => if c = '@' then [] else c :: takeUntilAt rest

/-- The segment after the first `@`, when one exists. -/
def afterFirstAt : List Char → Option (List Char)
  | [] => none
  | c :: rest =>
    if c = '@' then some (takeUntilAt rest) else afterFirstAt rest

/-- `email.split('@')[1] if '@' in email else ''` (server.py line 206): the
segment between the first `@` and the following `@` or the end; the empty
string when the email has no `@`. -/
def deriveDomain (email : String) : String :=
  match afterFirstAt email.data with
  | some cs => String.mk cs
  | none => ""

/-- One position of a MongoDB `$regex` pattern match, for the patterns that
occur here (domain strings): every character is a literal except `.`, which
matches any single character. `patPre p l` is true iff the pattern `p`
matches a prefix of `l`. -/
def patPre : List Char → List Char → Bool
  | [], _ => true
  | _ :: _, [] => false
  | p :: ps, c :: cs => (p == '.' || p == c) && patPre ps cs

/-- Unanchored MongoDB `$regex` search: the pattern matches at some position
of the subject. -/
def patSearch : List Char → List Char → Bool
  | pat, [] => pat.isEmpty
  | pat, c :: rest => patPre pat (c :: rest) || patSearch pat rest

/-- The `$regex` predicate with the `i` (case-insensitive) option used by
`search_email_breaches` (server.py line 209): the pattern, case-folded,
matches somewhere in the case-folded subject. Domain strings contain no
regex metacharacter other than `.`. -/
def regexMatchI (pat subject : String) : Bool :=
  patSearch (lowerChars pat.data) (lowerChars subject.data)

/-- The response body of `search_email_breaches`. -/
structure EmailSearchResult where
  email : String
  breaches_found : Nat
  breaches : List BreachRecord
deriving DecidableEq, Repr

/-- `search_email_breaches(email)` (server.py lines 196-225): derive the
domain as the segment after the first `@` (empty when there is none), then
return the first 20 stored records matching the MongoDB query
`$or: [domain matches the derived pattern case-insensitively,
emails_compromised > 0]`. No provider call is made (the function takes no
`ProviderResponse`); the store is read, never written. -/
def search_email_breaches (email : String) (store : List BreachRecord) :
    EmailSearchResult :=
  let domain := deriveDomain email
  let local_breaches :=
    (store.filter (fun b =>
      regexMatchI domain b.domain || 0 < b.emails_compromised)).take 20
  { email := email
    breaches_found := local_breaches.length
    breaches := local_breaches }

/-- `dismiss_alert(alert_id)` (server.py lines 282-288):
`update_one({id: alert_id}, {$set: {status: "dismissed", dismissed_at:
now}})` — update the first stored alert with that id, whatever its current
status; `modified` is MongoDB's `modified_count`: 1 when the update changed
the document, 0 when no document matched or the update left it identical. -/
def dismiss_alert (now : Nat) (alert_id : String) :
    List Alert → List Alert × Nat
  | [] => ([], 0)
  | a :: rest =>
    if a.id == alert_id then
      let a2 : Alert :=
        { a with status := "dismissed", dismissed_at := some now }
      if a2 = a then (a :: rest, 0) else (a2 :: rest, 1)
    else
      let tail := dismiss_alert now alert_id rest
      (a :: tail.1, tail.2)

/-- The stored records of the breaches collection bearing a given name
(MongoDB `find({breach_name: n})` in natural order). -/
def namedRecords (n : String) (store : List BreachRecord) :
    List BreachRecord :=
  store.filter (fun s => s.breach_name == n)

/-! ### Concrete test data

Fixtures used to evaluate the embedded endpoints at concrete inputs. -/

/-- Catalog entry with an upper-case superstring domain of `adobe.com`. -/
def rbAU : RawBreach :=
  { Name := some "AdobeAU", Domain := some "ADOBE.COM.AU",
    PwnCount := some 150000, BreachDate := some "2013-10-04" }

/-- Catalog entry with a subdomain-style superstring of `adobe.com`. -/
def rbWWW : RawBreach :=
  { Name := some "AdobeWWW", Domain := some "www.adobe.com",
    PwnCount := some 152000000, BreachDate := some "2013-10-04" }

/-- Catalog entry whose domain does not contain `adobe.com`. -/
def rbOther : RawBreach :=
  { Name := some "OtherLeak", Domain := some "example.org",
    BreachDate := some "2015-03-01" }

/-- A three-entry provider catalog. -/
def catAdobe : List RawBreach := [rbAU, rbWWW, rbOther]

/-- A catalog entry matching domain `a.com`. -/
def rbA (i : Nat) : RawBreach :=
  { Name := some ("A" ++ toString i), Domain := some "a.com",
    BreachDate := some "2016-08-31" }

/-- A six-entry catalog, all matching `a.com`. -/
def catSix : List RawBreach := [rbA 1, rbA 2, rbA 3, rbA 4, rbA 5, rbA 6]

/-- Matched entry whose `BreachDate` string is present but unparseable:
`datetime.fromisoformat` raises on it. -/
def rbBadDate : RawBreach :=
  { Name := some "BadDate", Domain := some "x.com",
    BreachDate := some "bad-date" }

/-- Matched entry with a well-formed date, listed after `rbBadDate`. -/
def rbGoodDate : RawBreach :=
  { Name := some "GoodDate", Domain := some "x.com",
    BreachDate := some "2016-08-31" }

/-- Matched entry whose `BreachDate` field is absent. -/
def rbNoDate : RawBreach :=
  { Name := some "NoDate", Domain := some "x.com" }

/-- A stored breach record whose domain does not contain `adobe.com` but
whose compromised count is positive. -/
def recOther : BreachRecord :=
  { id := "i1", breach_name := "OtherLeak", domain := "other.org",
    emails_compromised := 100, breach_date := ⟨2016, 8, 31⟩,
    data_classes := [], description := "", verified := true,
    source := "HaveIBeenPwned", created_at := 0 }

/-- The empty application state (fresh database). -/
def stEmpty : AppState :=
  { breaches := [], domains := [], alerts := [], uuidCtr := 0 }

/-- A normalized Dropbox record as first ingested. -/
def recD1 : BreachRecord :=
  { id := "i-d1", breach_name := "DropboxLeak2016", domain := "dropbox.com",
    emails_compromised := 68648009, breach_date := ⟨2016, 8, 31⟩,
    data_classes := ["Email addresses", "Passwords"], description := "",
    verified := true, source := "HaveIBeenPwned", created_at := 0 }

/-- A re-ingestion of the same breach name with different field values. -/
def recD2 : BreachRecord :=
  { id := "i-d2", breach_name := "DropboxLeak2016", domain := "dropbox.com",
    emails_compromised := 68700000, breach_date := ⟨2016, 8, 31⟩,
    data_classes := ["Email addresses", "Passwords"],
    description := "updated", verified := true,
    source := "HaveIBeenPwned", created_at := 9 }

/-- An alert that has already been dismissed (at time 5). -/
def alDismissed : Alert :=
  { id := "a1", domain := "d.com", breach_name := "Multiple breaches detected",
    severity := "medium", message := "m", created_at := 0,
    status := "dismissed", dismissed_at := some 5 }

/-- A watchlist of three monitored domains. -/
def stThree : AppState :=
  { breaches := [], alerts := [], uuidCtr := 0,
    domains :=
      [ { mongoId := "m1", id := "u1", domain := "a.com",
          email_patterns := [], created_at := 0, status := "active" },
        { mongoId := "m2", id := "u2", domain := "b.com",
          email_patterns := [], created_at := 0, status := "active" },
        { mongoId := "m3", id := "u3", domain := "c.com",
          email_patterns := [], created_at := 0, status := "active" } ] }

/-- Provider behaviour in which the call for `b.com` fails at the transport
level while the calls for `a.com` and `c.com` succeed. -/
def respsBFails : String → ProviderResponse := fun d =>
  if d = "a.com" then .http 200 [rbA 1]
  else if d = "b.com" then .failure "HTTPSConnectionPool: read timed out"
  else .http 200 []

/-! ### Helper lemmas -/

/-- A date-normalizable entry is normalized to a record carrying its name. -/
lemma normalizeBreach_some (u : String) (now : Nat) (b : RawBreach)
    (hb : dateOk b = true) :
    ∃ r, normalizeBreach u now b = some r ∧
      r.breach_name = b.Name.getD "" := by
  unfold dateOk at hb
  unfold normalizeBreach
  cases h : parseIsoDate (b.BreachDate.getD "2024-01-01") with
  | none => rw [h] at hb; simp at hb
  | some d => exact ⟨_, rfl, rfl⟩

/-- An entry with an unparseable date string fails to normalize. -/
lemma normalizeBreach_none (u : String) (now : Nat) (b : RawBreach)
    (hb : dateOk b = false) :
    normalizeBreach u now b = none := by
  unfold dateOk at hb
  unfold normalizeBreach
  cases h : parseIsoDate (b.BreachDate.getD "2024-01-01") with
  | none => rfl
  | some d => rw [h] at hb; simp at hb

/-- When every entry normalizes, the upsert loop completes without an
exception. -/
lemma upsertMatches_none (now : Nat) :
    ∀ (l : List RawBreach) (ctr : Nat) (store : List BreachRecord),
    (∀ b ∈ l, dateOk b = true) →
    ∃ store2 ctr2, upsertMatches now ctr l store = (store2, ctr2, none) := by
  intro l
  induction l with
  | nil =>
    intro ctr store _
    exact ⟨store, ctr, rfl⟩
  | cons b rest ih =>
    intro ctr store h
    obtain ⟨r, hr, _⟩ :=
      normalizeBreach_some (mkUuid ctr) now b (h b (by simp))
    obtain ⟨store2, ctr2, h2⟩ :=
      ih (ctr + 1) (upsertBreach r store) (fun x hx => h x (by simp [hx]))
    exact ⟨store2, ctr2, by simp [upsertMatches, hr, h2]⟩

/-- Success path of a single-domain scan: a 200 response whose matched
entries all normalize yields the filtered list and its count, with no
`message` or `error` key. -/
lemma get_domain_breaches_success (now : Nat) (catalog : List RawBreach)
    (domain : String) (st : ScanState)
    (hp : ∀ b ∈ catalog.filter (domMatch domain), dateOk b = true) :
    (get_domain_breaches now (.http 200 catalog) domain st).2 =
      { breaches := catalog.filter (domMatch domain),
        count := (catalog.filter (domMatch domain)).length } := by
  obtain ⟨store2, ctr2, h2⟩ :=
    upsertMatches_none now (catalog.filter (domMatch domain)) st.uuidCtr
      st.breaches hp
  simp [get_domain_breaches, h2]

/-- The breaches store after a 200-response scan is exactly the store
component computed by the upsert loop (on both the normal and the
exception path). -/
lemma get_domain_breaches_store (now : Nat) (catalog : List RawBreach)
    (domain : String) (st : ScanState) :
    (get_domain_breaches now (.http 200 catalog) domain st).1.breaches =
      (upsertMatches now st.uuidCtr (catalog.filter (domMatch domain))
        st.breaches).1 := by
  rcases h : upsertMatches now st.uuidCtr (catalog.filter (domMatch domain))
    st.breaches with ⟨store, ctr, msg⟩
  cases msg <;> simp [get_domain_breaches, h]

/-! ### Claim C4 -/

/-- C4: `scanDomain` never raises to its caller: a transport/timeout-level
provider failure returns an empty match list, count 0, and the diagnostic
error message; a non-200 provider status likewise returns an empty result
with a message rather than a fault. (The embedding `get_domain_breaches`
is a total function because the Python body is wrapped in a catch-all
`try/except`.) -/
theorem C4_scanDomain_never_raises (now : Nat) (domain : String)
    (st : ScanState) (msg : String) (status : Nat)
    (catalog : List RawBreach) (hs : status ≠ 200) :
    get_domain_breaches now (.failure msg) domain st
      = (st, { breaches := [], count := 0, error := some msg }) ∧
    get_domain_breaches now (.http status catalog) domain st
      = (st, { breaches := [], count := 0,
               message := some "API rate limit or error" }) := by
  refine ⟨rfl, ?_⟩
  simp [get_domain_breaches, hs]

/-- Witness for C4 at a concrete input (timeout message, status 429). -/
theorem C4_scanDomain_never_raises_witness :
    (429 : Nat) ≠ 200 ∧
    (get_domain_breaches 0 (.failure "timed out") "adobe.com" ⟨[], 0⟩
       = (⟨[], 0⟩, { breaches := [], count := 0, error := some "timed out" }) ∧
     get_domain_breaches 0 (.http 429 catAdobe) "adobe.com" ⟨[], 0⟩
       = (⟨[], 0⟩, { breaches := [], count := 0,
                     message := some "API rate limit or error" })) :=
  ⟨by decide,
   C4_scanDomain_never_raises 0 "adobe.com" ⟨[], 0⟩ "timed out" 429 catAdobe
     (by decide)⟩

/-! ### Claim C5 -/

/-- C5: the filter of `scanDomain` is case-insensitive and substring-based:
an entry of a 200-response catalog is among the returned matches iff the
lower-cased queried domain occurs as a substring of the entry's lower-cased
domain field; the returned matches are the filtered pre-normalization
entries and the returned count is their number. (Stated under the
hypothesis that every matched entry's date normalizes, i.e. the scan
reaches its success return.) -/
theorem C5_filter_case_insensitive_substring (now : Nat) (domain : String)
    (catalog : List RawBreach) (st : ScanState)
    (hp : ∀ b ∈ catalog.filter (domMatch domain), dateOk b = true) :
    ((get_domain_breaches now (.http 200 catalog) domain st).2.breaches
        = catalog.filter (domMatch domain)) ∧
    (∀ b ∈ catalog,
      (b ∈ (get_domain_breaches now (.http 200 catalog) domain st).2.breaches
        ↔ containsSub (lowerChars (b.Domain.getD "").data)
            (lowerChars domain.data) = true)) ∧
    ((get_domain_breaches now (.http 200 catalog) domain st).2.count
        = (catalog.filter (domMatch domain)).length) := by
  have hres := get_domain_breaches_success now catalog domain st hp
  refine ⟨by rw [hres], ?_, by rw [hres]⟩
  intro b hb
  rw [hres]
  simp only [List.mem_filter, domMatch]
  exact ⟨fun h => h.2, fun h => ⟨hb, h⟩⟩

/-- Witness for C5: querying `adobe.com` against a catalog holding
`ADOBE.COM.AU`, `www.adobe.com` and `example.org` returns exactly the two
superstring entries. -/
theorem C5_filter_case_insensitive_substring_witness :
    (∀ b ∈ catAdobe.filter (domMatch "adobe.com"), dateOk b = true) ∧
    (((get_domain_breaches 0 (.http 200 catAdobe) "adobe.com"
        ⟨[], 0⟩).2.breaches = catAdobe.filter (domMatch "adobe.com")) ∧
     (∀ b ∈ catAdobe,
       (b ∈ (get_domain_breaches 0 (.http 200 catAdobe) "adobe.com"
           ⟨[], 0⟩).2.breaches
         ↔ containsSub (lowerChars (b.Domain.getD "").data)
             (lowerChars "adobe.com".data) = true)) ∧
     ((get_domain_breaches 0 (.http 200 catAdobe) "adobe.com"
        ⟨[], 0⟩).2.count
        = (catAdobe.filter (domMatch "adobe.com")).length)) :=
  ⟨by decide,
   C5_filter_case_insensitive_substring 0 "adobe.com" catAdobe ⟨[], 0⟩
     (by decide)⟩

/-! ### Claim C10 -/

/-- The empty needle occurs in every string, as Python's `in` has it. -/
lemma containsSub_nil (hay : List Char) : containsSub hay [] = true := by
  cases hay with
  | nil => rfl
  | cons c rest => simp [containsSub, charsPre]

/-- The empty queried domain matches every catalog entry. -/
lemma domMatch_empty (b : RawBreach) : domMatch "" b = true := by
  unfold domMatch
  have : lowerChars "".data = [] := rfl
  rw [this, containsSub_nil]

/-- The record just upserted is retrievable by its name. -/
lemma upsertBreach_mem_name (r : BreachRecord) :
    ∀ store : List BreachRecord,
    ∃ s ∈ upsertBreach r store, s.breach_name = r.breach_name := by
  intro store
  induction store with
  | nil => exact ⟨r, by simp [upsertBreach]⟩
  | cons s rest ih =>
    by_cases h : s.breach_name == r.breach_name
    · exact ⟨r, by simp [upsertBreach, h]⟩
    · obtain ⟨x, hx, hxn⟩ := ih
      exact ⟨x, by simp [upsertBreach, h, hx], hxn⟩

/-- An upsert never removes a breach name from the store. -/
lemma upsertBreach_keeps_name (r : BreachRecord) (n : String) :
    ∀ store : List BreachRecord,
    (∃ s ∈ store, s.breach_name = n) →
    ∃ s ∈ upsertBreach r store, s.breach_name = n := by
  intro store
  induction store with
  | nil => rintro ⟨s, hs, -⟩; simp at hs
  | cons s rest ih =>
    rintro ⟨x, hx, hxn⟩
    by_cases h : s.breach_name == r.breach_name
    · rcases List.mem_cons.mp hx with hx | hx
      · subst hx
        refine ⟨r, by simp [upsertBreach, h], ?_⟩
        rw [← hxn]
        exact (eq_of_beq h).symm
      · exact ⟨x, by simp [upsertBreach, h, hx], hxn⟩
    · rcases List.mem_cons.mp hx with hx | hx
      · subst hx
        exact ⟨x, by simp [upsertBreach, h], hxn⟩
      · obtain ⟨y, hy, hyn⟩ := ih ⟨x, hx, hxn⟩
        exact ⟨y, by simp [upsertBreach, h, hy], hyn⟩

/-- The upsert loop never removes a breach name from the store. -/
lemma upsertMatches_keeps_name (now : Nat) (n : String) :
    ∀ (l : List RawBreach) (ctr : Nat) (store : List BreachRecord),
    (∃ s ∈ store, s.breach_name = n) →
    ∃ s ∈ (upsertMatches now ctr l store).1, s.breach_name = n := by
  intro l
  induction l with
  | nil => intro ctr store h; exact h
  | cons b rest ih =>
    intro ctr store h
    cases hr : normalizeBreach (mkUuid ctr) now b with
    | none => simpa [upsertMatches, hr] using h
    | some r =>
      have := ih (ctr + 1) (upsertBreach r store)
        (upsertBreach_keeps_name r n store h)
      simpa [upsertMatches, hr] using this

/-- Every entry processed by the upsert loop (when all entries normalize)
leaves a record with its name in the resulting store. -/
lemma upsertMatches_mem_name (now : Nat) :
    ∀ (l : List RawBreach) (ctr : Nat) (store : List BreachRecord)
      (b : RawBreach), b ∈ l → (∀ x ∈ l, dateOk x = true) →
    ∃ s ∈ (upsertMatches now ctr l store).1,
      s.breach_name = b.Name.getD "" := by
  intro l
  induction l with
  | nil => intro ctr store b hb; simp at hb
  | cons c rest ih =>
    intro ctr store b hb h
    obtain ⟨r, hr, hrn⟩ :=
      normalizeBreach_some (mkUuid ctr) now c (h c (by simp))
    rcases List.mem_cons.mp hb with hb | hb
    · subst hb
      obtain ⟨s, hs, hsn⟩ :=
        upsertMatches_keeps_name now (b.Name.getD "") rest (ctr + 1)
          (upsertBreach r store)
          (by
            obtain ⟨s, hs, hsn⟩ := upsertBreach_mem_name r store
            exact ⟨s, hs, by rw [hsn, hrn]⟩)
      exact ⟨s, by simpa [upsertMatches, hr] using hs, hsn⟩
    · obtain ⟨s, hs, hsn⟩ :=
        ih (ctr + 1) (upsertBreach r store) b hb
          (fun x hx => h x (by simp [hx]))
      exact ⟨s, by simpa [upsertMatches, hr] using hs, hsn⟩

/-- C10: scanning the empty-string domain matches every catalog entry (the
empty string is a substring of every domain field): a successful scan of
`""` returns the whole catalog as matches, whose count is the catalog's
length, and upserts a record named after every catalog entry into the
breaches store. -/
theorem C10_empty_domain_matches_all (now : Nat) (catalog : List RawBreach)
    (st : ScanState) (hp : ∀ b ∈ catalog, dateOk b = true) :
    ((get_domain_breaches now (.http 200 catalog) "" st).2.breaches
        = catalog) ∧
    ((get_domain_breaches now (.http 200 catalog) "" st).2.count
        = catalog.length) ∧
    (∀ b ∈ catalog,
      ∃ s ∈ (get_domain_breaches now (.http 200 catalog) "" st).1.breaches,
        s.breach_name = b.Name.getD "") := by
  have hfilter : catalog.filter (domMatch "") = catalog :=
    List.filter_eq_self.mpr (fun b _ => domMatch_empty b)
  have hres := get_domain_breaches_success now catalog "" st
    (by rw [hfilter]; exact hp)
  rw [hfilter] at hres
  refine ⟨by rw [hres], by rw [hres], ?_⟩
  intro b hb
  rw [get_domain_breaches_store, hfilter]
  exact upsertMatches_mem_name now catalog st.uuidCtr st.breaches b hb hp

/-- Witness for C10: scanning `""` against the three-entry catalog returns
all three entries and stores all three names. -/
theorem C10_empty_domain_matches_all_witness :
    (∀ b ∈ catAdobe, dateOk b = true) ∧
    (((get_domain_breaches 3 (.http 200 catAdobe) "" ⟨[], 0⟩).2.breaches
        = catAdobe) ∧
     ((get_domain_breaches 3 (.http 200 catAdobe) "" ⟨[], 0⟩).2.count
        = catAdobe.length) ∧
     (∀ b ∈ catAdobe,
       ∃ s ∈ (get_domain_breaches 3 (.http 200 catAdobe) ""
           ⟨[], 0⟩).1.breaches,
         s.breach_name = b.Name.getD "")) :=
  ⟨by decide,
   C10_empty_domain_matches_all 3 catAdobe ⟨[], 0⟩ (by decide)⟩

/-! ### Claim C3 -/

/-- Upserting `r` into a store holding at most one record named like `r`
leaves exactly the single record `r` under that name. -/
lemma namedRecords_upsert_self (r : BreachRecord) :
    ∀ store : List BreachRecord,
    (namedRecords r.breach_name store).length ≤ 1 →
    namedRecords r.breach_name (upsertBreach r store) = [r] := by
  intro store
  induction store with
  | nil => intro _; simp [namedRecords, upsertBreach]
  | cons s rest ih =>
    intro h
    by_cases hs : s.breach_name == r.breach_name
    · have h' := h
      simp only [namedRecords, List.filter_cons, hs, if_true,
        List.length_cons] at h'
      have hnil :
          List.filter (fun t => t.breach_name == r.breach_name) rest = [] :=
        List.eq_nil_of_length_eq_zero (by omega)
      simp [namedRecords, upsertBreach, hs, List.filter_cons, hnil]
    · have h2 : (namedRecords r.breach_name rest).length ≤ 1 := by
        simpa [namedRecords, List.filter_cons, hs] using h
      simp [upsertBreach, hs, namedRecords, List.filter_cons]
      have := ih h2
      unfold namedRecords at this
      simpa using this

/-- Upserting `r` does not disturb the records stored under any other
name. -/
lemma namedRecords_upsert_other (r : BreachRecord) (n : String)
    (hne : r.breach_name ≠ n) :
    ∀ store : List BreachRecord,
    namedRecords n (upsertBreach r store) = namedRecords n store := by
  intro store
  have hrn : (r.breach_name == n) = false := by
    simpa using hne
  induction store with
  | nil => simp [namedRecords, upsertBreach, hrn]
  | cons s rest ih =>
    by_cases hs : s.breach_name == r.breach_name
    · have hsn : (s.breach_name == n) = false := by
        have : s.breach_name = r.breach_name := eq_of_beq hs
        simpa [this] using hne
      simp [upsertBreach, hs, namedRecords, List.filter_cons, hrn, hsn]
    · simp only [upsertBreach, hs, if_neg, Bool.false_eq_true,
        not_false_eq_true, namedRecords, List.filter_cons]
      unfold namedRecords at ih
      rw [ih]

/-- C3: the Breach Repository upsert keeps at most one stored record per
breach name: after upserting `r1` and then `r2` bearing the same breach
name (with different field values) into a store satisfying the uniqueness
invariant, exactly the single record `r2` is stored under that name (full
replace, not merge) and the invariant holds for every name. -/
theorem C3_upsert_unique_per_name (store : List BreachRecord)
    (r1 r2 : BreachRecord) (hname : r1.breach_name = r2.breach_name)
    (hdiff : r1 ≠ r2)
    (hinv : ∀ n, (namedRecords n store).length ≤ 1) :
    (namedRecords r2.breach_name
        (upsertBreach r2 (upsertBreach r1 store)) = [r2]) ∧
    (∀ n, (namedRecords n
        (upsertBreach r2 (upsertBreach r1 store))).length ≤ 1) := by
  have h1 : namedRecords r1.breach_name (upsertBreach r1 store) = [r1] :=
    namedRecords_upsert_self r1 store (hinv r1.breach_name)
  have hbound : (namedRecords r2.breach_name
      (upsertBreach r1 store)).length ≤ 1 := by
    rw [← hname, h1]; simp
  have h2 : namedRecords r2.breach_name
      (upsertBreach r2 (upsertBreach r1 store)) = [r2] :=
    namedRecords_upsert_self r2 (upsertBreach r1 store) hbound
  refine ⟨h2, ?_⟩
  intro n
  by_cases hn : r2.breach_name = n
  · rw [← hn, h2]; simp
  · rw [namedRecords_upsert_other r2 n hn,
      namedRecords_upsert_other r1 n (by rw [hname]; exact hn)]
    exact hinv n

/-- Witness for C3: upserting the Dropbox record twice (second time with
updated fields) into an empty store leaves exactly the updated record. -/
theorem C3_upsert_unique_per_name_witness :
    (recD1.breach_name = recD2.breach_name ∧ recD1 ≠ recD2) ∧
    ((namedRecords recD2.breach_name
        (upsertBreach recD2 (upsertBreach recD1 [])) = [recD2]) ∧
     (∀ n, (namedRecords n
        (upsertBreach recD2 (upsertBreach recD1 []))).length ≤ 1)) :=
  ⟨⟨by decide, by decide⟩,
   C3_upsert_unique_per_name [] recD1 recD2 (by decide) (by decide)
     (fun _ => by simp [namedRecords])⟩

/-! ### Claim C2 -/

/-- C2: in the comprehensive scan, a monitored domain whose scan yields
match count `n` produces exactly one alert when `n > 0` — never one alert
per matched breach — with severity `"high"` when `n > 5` and `"medium"`
when `0 < n ≤ 5` (so `n = 6` gives `"high"` and `n = 5` gives
`"medium"`), and no alert when `n = 0`. -/
theorem C2_alert_severity_threshold (now : Nat) (resp : ProviderResponse)
    (dname : String) (st : AppState) (n : Nat)
    (hn : (get_domain_breaches now resp dname
      ⟨st.breaches, st.uuidCtr⟩).2.count = n) :
    ((n = 0 →
      (comprehensiveScanStep now resp dname st).1.alerts = st.alerts) ∧
     (0 < n → ∃ a : Alert,
        (comprehensiveScanStep now resp dname st).1.alerts
          = st.alerts ++ [a] ∧
        a.domain = dname ∧ a.status = "active" ∧
        a.severity = (if 5 < n then "high" else "medium"))) := by
  constructor
  · intro h0
    simp [comprehensiveScanStep, hn, h0]
  · intro h1
    refine ⟨{ id := mkUuid (get_domain_breaches now resp dname
                ⟨st.breaches, st.uuidCtr⟩).1.uuidCtr,
              domain := dname,
              breach_name := "Multiple breaches detected",
              severity := if 5 < n then "high" else "medium",
              message := "Found " ++ toString n ++ " breaches for " ++ dname,
              created_at := now,
              status := "active" }, ?_, rfl, rfl, rfl⟩
    simp [comprehensiveScanStep, hn, h1]

/-- Witness for C2: scanning `a.com` against a six-entry catalog yields
count 6 and one `"high"` alert. -/
theorem C2_alert_severity_threshold_witness :
    ((get_domain_breaches 7 (.http 200 catSix) "a.com"
      ⟨stThree.breaches, stThree.uuidCtr⟩).2.count = 6) ∧
    (((6 : Nat) = 0 →
      (comprehensiveScanStep 7 (.http 200 catSix) "a.com" stThree).1.alerts
        = stThree.alerts) ∧
     (0 < 6 → ∃ a : Alert,
        (comprehensiveScanStep 7 (.http 200 catSix) "a.com"
            stThree).1.alerts = stThree.alerts ++ [a] ∧
        a.domain = "a.com" ∧ a.status = "active" ∧
        a.severity = (if 5 < 6 then "high" else "medium"))) :=
  ⟨by decide,
   C2_alert_severity_threshold 7 (.http 200 catSix) "a.com" stThree 6
     (by decide)⟩

/-! ### Claim C7 -/

/-- Setting the dismissal fields leaves an alert unchanged exactly when it
was already dismissed at the very same instant. -/
lemma alert_dismiss_set_eq_iff (now : Nat) (a : Alert) :
    ({ a with status := "dismissed", dismissed_at := some now } = a) ↔
      (a.status = "dismissed" ∧ a.dismissed_at = some now) := by
  cases a
  simp [Alert.mk.injEq, eq_comm]

/-- Dismissal of an id held by no stored alert changes nothing and reports
`modified = 0`. -/
lemma dismiss_alert_not_found (now : Nat) (alert_id : String) :
    ∀ alerts : List Alert, (∀ x ∈ alerts, x.id ≠ alert_id) →
    dismiss_alert now alert_id alerts = (alerts, 0) := by
  intro alerts
  induction alerts with
  | nil => intro _; rfl
  | cons x rest ih =>
    intro h
    have hx : (x.id == alert_id) = false := by
      simpa using h x (by simp)
    have ihr := ih (fun y hy => h y (by simp [hy]))
    simp [dismiss_alert, hx, ihr]

/-- Dismissal updates the first stored alert bearing the id — whatever its
status — and reports `modified = 1` unless the update leaves the document
identical. -/
lemma dismiss_alert_found (now : Nat) (alert_id : String) (a : Alert)
    (post : List Alert) (ha : a.id = alert_id) :
    ∀ pre : List Alert, (∀ x ∈ pre, x.id ≠ alert_id) →
    dismiss_alert now alert_id (pre ++ a :: post)
      = (pre ++ { a with status := "dismissed"
                         dismissed_at := some now } :: post,
         if { a with status := "dismissed"
                     dismissed_at := some now } = a then 0 else 1) := by
  intro pre
  induction pre with
  | nil =>
    intro _
    subst ha
    by_cases he :
        ({ a with status := "dismissed", dismissed_at := some now } = a)
    · simp [dismiss_alert, he]
    · simp [dismiss_alert, he]
  | cons x rest ih =>
    intro h
    have hx : (x.id == alert_id) = false := by
      simpa using h x (by simp)
    have ihr := ih (fun y hy => h y (by simp [hy]))
    simp [dismiss_alert, hx, ihr]

/-- C7 counterexample: dismissing an already-dismissed alert (dismissed at
time 5) at time 10 reports `modified = 1`, not `modified = false` as the
claim states — MongoDB counts the document as modified because
`dismissed_at` is overwritten with the new timestamp. -/
theorem C7_counterexample :
    alDismissed.status = "dismissed" ∧
    (dismiss_alert 10 "a1" [alDismissed]).2 = 1 ∧
    (dismiss_alert 10 "a1" [alDismissed]).1
      = [{ alDismissed with dismissed_at := some 10 }] := by
  decide

/-- C7 amended: dismissal never raises; on an unknown id it changes nothing
and reports `modified = 0`; on a stored alert with the id — active or not —
it sets status to dismissed and dismissed-at to now, reporting
`modified = 1` unless the alert was already dismissed at exactly that
timestamp (so re-dismissing an already-dismissed alert normally reports
`modified = 1`, refreshing its dismissed-at). -/
theorem C7_dismiss_update_semantics (now : Nat) (alert_id : String)
    (alerts pre post : List Alert) (a : Alert) :
    ((∀ x ∈ alerts, x.id ≠ alert_id) →
      dismiss_alert now alert_id alerts = (alerts, 0)) ∧
    ((∀ x ∈ pre, x.id ≠ alert_id) → a.id = alert_id →
      dismiss_alert now alert_id (pre ++ a :: post)
        = (pre ++ { a with status := "dismissed"
                           dismissed_at := some now } :: post,
           if a.status = "dismissed" ∧ a.dismissed_at = some now then 0
           else 1)) := by
  constructor
  · exact dismiss_alert_not_found now alert_id alerts
  · intro hpre ha
    rw [dismiss_alert_found now alert_id a post ha pre hpre]
    by_cases he : a.status = "dismissed" ∧ a.dismissed_at = some now
    · rw [if_pos he, if_pos ((alert_dismiss_set_eq_iff now a).mpr he)]
    · rw [if_neg he,
        if_neg (fun hc => he ((alert_dismiss_set_eq_iff now a).mp hc))]

/-- Witness for C7 at concrete inputs: an unknown id reports 0; the
already-dismissed alert `alDismissed` reports per the identity test. -/
theorem C7_dismiss_update_semantics_witness :
    (dismiss_alert 10 "zz" [alDismissed] = ([alDismissed], 0)) ∧
    (dismiss_alert 10 "a1" ([] ++ alDismissed :: [])
      = ([] ++ { alDismissed with status := "dismissed"
                                  dismissed_at := some 10 } :: [],
         if alDismissed.status = "dismissed" ∧
            alDismissed.dismissed_at = some 10 then 0
         else 1)) :=
  ⟨(C7_dismiss_update_semantics 10 "zz" [alDismissed] [] [] alDismissed).1
     (by decide),
   (C7_dismiss_update_semantics 10 "a1" [] [] [] alDismissed).2
     (by decide) (by decide)⟩

/-! ### Claim C6 -/

/-- C6 counterexample: searching `user@adobe.com` against a store holding
one record whose domain `other.org` does not match the derived domain
`adobe.com` still returns that record, because the MongoDB query is an
`$or` with `emails_compromised > 0` — refuting the claim that records not
matching the derived domain are not returned. -/
theorem C6_counterexample :
    regexMatchI (deriveDomain "user@adobe.com") recOther.domain = false ∧
    0 < recOther.emails_compromised ∧
    (search_email_breaches "user@adobe.com" [recOther]).breaches
      = [recOther] := by
  decide

/-- C6 amended: the email search derives the domain as the segment after
the first `@`, makes no provider call (the embedding takes no provider
response), and returns the first 20 stored records matching the `$or`
query: domain matches the derived pattern case-insensitively OR the
record's compromised count is positive; the reported count equals the
number returned, which never exceeds 20, and every returned record is a
stored record satisfying that disjunction. -/
theorem C6_email_search_or_query (email : String)
    (store : List BreachRecord) :
    ((search_email_breaches email store).breaches
        = (store.filter (fun b =>
            regexMatchI (deriveDomain email) b.domain
              || 0 < b.emails_compromised)).take 20) ∧
    ((search_email_breaches email store).breaches_found
        = (search_email_breaches email store).breaches.length) ∧
    ((search_email_breaches email store).breaches.length ≤ 20) ∧
    (∀ b ∈ (search_email_breaches email store).breaches,
      b ∈ store ∧ (regexMatchI (deriveDomain email) b.domain = true
        ∨ 0 < b.emails_compromised)) := by
  refine ⟨rfl, rfl, ?_, ?_⟩
  · simpa [search_email_breaches] using
      min_le_left 20 (store.filter (fun b =>
        regexMatchI (deriveDomain email) b.domain
          || 0 < b.emails_compromised)).length
  · intro b hb
    have hb2 : b ∈ store.filter (fun b =>
        regexMatchI (deriveDomain email) b.domain
          || 0 < b.emails_compromised) :=
      List.take_subset 20 _ hb
    have := List.mem_filter.mp hb2
    refine ⟨this.1, ?_⟩
    have hor := this.2
    simp only [Bool.or_eq_true, decide_eq_true_eq] at hor
    exact hor

/-- Witness for C6 at a concrete input. -/
theorem C6_email_search_or_query_witness :
    ((search_email_breaches "user@adobe.com" [recOther]).breaches
        = ([recOther].filter (fun b =>
            regexMatchI (deriveDomain "user@adobe.com") b.domain
              || 0 < b.emails_compromised)).take 20) ∧
    ((search_email_breaches "user@adobe.com" [recOther]).breaches_found
        = (search_email_breaches "user@adobe.com"
            [recOther]).breaches.length) ∧
    ((search_email_breaches "user@adobe.com"
        [recOther]).breaches.length ≤ 20) ∧
    (∀ b ∈ (search_email_breaches "user@adobe.com" [recOther]).breaches,
      b ∈ [recOther] ∧
        (regexMatchI (deriveDomain "user@adobe.com") b.domain = true
          ∨ 0 < b.emails_compromised)) :=
  C6_email_search_or_query "user@adobe.com" [recOther]

/-! ### Claim C8 -/

/-- `find?` skips over a prefix where it finds nothing. -/
lemma find?_append_of_none {α : Type} (p : α → Bool) :
    ∀ l1 l2 : List α, l1.find? p = none →
    (l1 ++ l2).find? p = l2.find? p := by
  intro l1
  induction l1 with
  | nil => intro l2 _; rfl
  | cons a l ih =>
    intro l2 h
    cases hpa : p a with
    | true => simp [List.find?, hpa] at h
    | false =>
      simp only [List.find?, hpa] at h
      simp [List.cons_append, List.find?, hpa, ih l2 h]

/-- C8: domain registration is idempotent on the domain key: a first
registration of an absent domain appends one watchlist entry with status
`"active"`, reports creation, and triggers exactly one scan whose outcome
is discarded (only its store writes persist); a second registration of the
same domain reports `created = false` together with the existing entry's
id, inserts nothing, and modifies no store. -/
theorem C8_registration_idempotent (now now2 : Nat)
    (resp resp2 : ProviderResponse) (domain : String)
    (pats pats2 : List String) (mid mid2 : String) (st : AppState)
    (h0 : st.domains.find? (fun d => d.domain == domain) = none) :
    ∃ entry : MonitoredDomainRec,
      entry.domain = domain ∧ entry.status = "active" ∧
      entry.mongoId = mid ∧
      (add_domain_monitor now resp domain pats mid st).1.domains
        = st.domains ++ [entry] ∧
      (add_domain_monitor now resp domain pats mid st).2.created = true ∧
      (add_domain_monitor now resp domain pats mid st).1.breaches
        = (get_domain_breaches now resp domain
            ⟨st.breaches, st.uuidCtr + 1⟩).1.breaches ∧
      (add_domain_monitor now2 resp2 domain pats2 mid2
          (add_domain_monitor now resp domain pats mid st).1).1.domains
        = (add_domain_monitor now resp domain pats mid st).1.domains ∧
      (add_domain_monitor now2 resp2 domain pats2 mid2
          (add_domain_monitor now resp domain pats mid st).1).1.breaches
        = (add_domain_monitor now resp domain pats mid st).1.breaches ∧
      (add_domain_monitor now2 resp2 domain pats2 mid2
          (add_domain_monitor now resp domain pats mid st).1).1.alerts
        = (add_domain_monitor now resp domain pats mid st).1.alerts ∧
      (add_domain_monitor now2 resp2 domain pats2 mid2
          (add_domain_monitor now resp domain pats mid st).1).2
        = { message := "Domain already being monitored",
            id := entry.mongoId } ∧
      (add_domain_monitor now2 resp2 domain pats2 mid2
          (add_domain_monitor now resp domain pats mid st).1).2.created
        = false := by
  refine ⟨{ mongoId := mid, id := mkUuid st.uuidCtr, domain := domain,
            email_patterns := pats, created_at := now,
            status := "active" }, rfl, rfl, rfl, ?_⟩
  set S1 := (add_domain_monitor now resp domain pats mid st).1 with hS1
  have h1 : S1
      = { breaches := (get_domain_breaches now resp domain
            ⟨st.breaches, st.uuidCtr + 1⟩).1.breaches,
          domains := st.domains ++
            [{ mongoId := mid, id := mkUuid st.uuidCtr, domain := domain,
               email_patterns := pats, created_at := now,
               status := "active" }],
          alerts := st.alerts,
          uuidCtr := (get_domain_breaches now resp domain
            ⟨st.breaches, st.uuidCtr + 1⟩).1.uuidCtr } := by
    rw [hS1]
    simp [add_domain_monitor, h0]
  have h2 : (add_domain_monitor now resp domain pats mid st).2
      = { message := "Domain monitoring activated", id := mid } := by
    simp [add_domain_monitor, h0]
  have hfind : S1.domains.find? (fun d => d.domain == domain)
      = some { mongoId := mid, id := mkUuid st.uuidCtr, domain := domain,
               email_patterns := pats, created_at := now,
               status := "active" } := by
    rw [h1]
    rw [find?_append_of_none _ st.domains _ h0]
    simp [List.find?]
  refine ⟨?_, ?_, ?_, ?_, ?_, ?_, ?_, ?_⟩
  · rw [h1]
  · rw [h2]; simp [RegisterResult.created]
  · rw [h1]
  · simp [add_domain_monitor, hfind]
  · simp [add_domain_monitor, hfind]
  · simp [add_domain_monitor, hfind]
  · simp [add_domain_monitor, hfind]
  · simp [add_domain_monitor, hfind, RegisterResult.created]

/-- Witness for C8 at a concrete input: registering `example.com` twice on
an empty database. -/
theorem C8_registration_idempotent_witness :
    (stEmpty.domains.find? (fun d => d.domain == "example.com") = none) ∧
    (∃ entry : MonitoredDomainRec,
      entry.domain = "example.com" ∧ entry.status = "active" ∧
      entry.mongoId = "m1" ∧
      (add_domain_monitor 0 (.http 200 []) "example.com" [] "m1"
          stEmpty).1.domains
        = stEmpty.domains ++ [entry] ∧
      (add_domain_monitor 0 (.http 200 []) "example.com" [] "m1"
          stEmpty).2.created = true ∧
      (add_domain_monitor 0 (.http 200 []) "example.com" [] "m1"
          stEmpty).1.breaches
        = (get_domain_breaches 0 (.http 200 []) "example.com"
            ⟨stEmpty.breaches, stEmpty.uuidCtr + 1⟩).1.breaches ∧
      (add_domain_monitor 1 (.http 200 []) "example.com" [] "m2"
          (add_domain_monitor 0 (.http 200 []) "example.com" [] "m1"
            stEmpty).1).1.domains
        = (add_domain_monitor 0 (.http 200 []) "example.com" [] "m1"
            stEmpty).1.domains ∧
      (add_domain_monitor 1 (.http 200 []) "example.com" [] "m2"
          (add_domain_monitor 0 (.http 200 []) "example.com" [] "m1"
            stEmpty).1).1.breaches
        = (add_domain_monitor 0 (.http 200 []) "example.com" [] "m1"
            stEmpty).1.breaches ∧
      (add_domain_monitor 1 (.http 200 []) "example.com" [] "m2"
          (add_domain_monitor 0 (.http 200 []) "example.com" [] "m1"
            stEmpty).1).1.alerts
        = (add_domain_monitor 0 (.http 200 []) "example.com" [] "m1"
            stEmpty).1.alerts ∧
      (add_domain_monitor 1 (.http 200 []) "example.com" [] "m2"
          (add_domain_monitor 0 (.http 200 []) "example.com" [] "m1"
            stEmpty).1).2
        = { message := "Domain already being monitored",
            id := entry.mongoId } ∧
      (add_domain_monitor 1 (.http 200 []) "example.com" [] "m2"
          (add_domain_monitor 0 (.http 200 []) "example.com" [] "m1"
            stEmpty).1).2.created = false) :=
  ⟨by decide,
   C8_registration_idempotent 0 1 (.http 200 []) (.http 200 [])
     "example.com" [] [] "m1" "m2" stEmpty (by decide)⟩

/-! ### Claim C9 -/

/-- The upsert loop on a filtered list holding an unparseable-date entry
after a well-dated prefix commits exactly the prefix's upserts, then stops
with the `ValueError` message: the bad entry and everything after it are
never upserted. -/
lemma upsertMatches_split (now : Nat) (bad : RawBreach)
    (hbad : dateOk bad = false) (rest : List RawBreach) :
    ∀ (good : List RawBreach) (ctr : Nat) (store : List BreachRecord),
    (∀ x ∈ good, dateOk x = true) →
    upsertMatches now ctr (good ++ bad :: rest) store
      = ((upsertMatches now ctr good store).1,
         (upsertMatches now ctr good store).2.1 + 1,
         some ("Invalid isoformat string: "
           ++ bad.BreachDate.getD "2024-01-01")) := by
  intro good
  induction good with
  | nil =>
    intro ctr store _
    simp [upsertMatches, normalizeBreach_none (mkUuid ctr) now bad hbad]
  | cons g good' ih =>
    intro ctr store h
    obtain ⟨r, hr, _⟩ :=
      normalizeBreach_some (mkUuid ctr) now g (h g (by simp))
    have ihr := ih (ctr + 1) (upsertBreach r store)
      (fun x hx => h x (by simp [hx]))
    simp [upsertMatches, hr, ihr]

/-- C9 counterexample: scanning `x.com` against a 200-response catalog whose
matched entries are `rbBadDate` (unparseable date string) followed by
`rbGoodDate` upserts nothing at all: no record with the fallback date is
written for the bad entry, and the bad entry's `ValueError` prevents the
upsert of the following matched entry — the scan returns the degraded
error result instead. -/
theorem C9_counterexample :
    domMatch "x.com" rbBadDate = true ∧
    domMatch "x.com" rbGoodDate = true ∧
    (get_domain_breaches 0 (.http 200 [rbBadDate, rbGoodDate]) "x.com"
        ⟨[], 0⟩).1.breaches = [] ∧
    (get_domain_breaches 0 (.http 200 [rbBadDate, rbGoodDate]) "x.com"
        ⟨[], 0⟩).2
      = { breaches := [], count := 0,
          error := some "Invalid isoformat string: bad-date" } := by
  decide

/-- C9 amended: the fixed fallback breach-date `2024-01-01` (with the empty
default data-classes and `verified = false`) applies only when `BreachDate`
is ABSENT; a present but unparseable date string instead raises a
`ValueError` that aborts the scan: the upserts made before the bad entry
remain committed, the bad entry and all later matches are not upserted, and
the endpoint returns the degraded error result. -/
theorem C9_normalization_defaults_and_abort :
    (∀ (u : String) (t : Nat) (b : RawBreach), b.BreachDate = none →
      normalizeBreach u t b = some
        { id := u, breach_name := b.Name.getD "",
          domain := b.Domain.getD "",
          emails_compromised := b.PwnCount.getD 0,
          breach_date := ⟨2024, 1, 1⟩,
          data_classes := b.DataClasses.getD [],
          description := b.Description.getD "",
          verified := b.IsVerified.getD false,
          source := "HaveIBeenPwned", created_at := t }) ∧
    (∀ (t : Nat) (st : ScanState) (domain : String)
      (catalog good rest : List RawBreach) (bad : RawBreach),
      catalog.filter (domMatch domain) = good ++ bad :: rest →
      (∀ x ∈ good, dateOk x = true) → dateOk bad = false →
      get_domain_breaches t (.http 200 catalog) domain st
        = (⟨(upsertMatches t st.uuidCtr good st.breaches).1,
            (upsertMatches t st.uuidCtr good st.breaches).2.1 + 1⟩,
           { breaches := [], count := 0,
             error := some ("Invalid isoformat string: "
               ++ bad.BreachDate.getD "2024-01-01") })) := by
  constructor
  · intro u t b hbd
    have hp : parseIsoDate "2024-01-01" = some ⟨2024, 1, 1⟩ := by decide
    unfold normalizeBreach
    rw [hbd]
    simp [hp]
  · intro t st domain catalog good rest bad hfilter hgood hbad
    have hs := upsertMatches_split t bad hbad rest good st.uuidCtr
      st.breaches hgood
    simp [get_domain_breaches, hfilter, hs]

/-- Witness for C9: the absent-date entry `rbNoDate` normalizes to the
fallback date; a catalog with `rbGoodDate` before `rbBadDate` commits only
the good upsert and returns the error result. -/
theorem C9_normalization_defaults_and_abort_witness :
    (rbNoDate.BreachDate = none ∧
     normalizeBreach "u0" 4 rbNoDate = some
       { id := "u0", breach_name := "NoDate", domain := "x.com",
         emails_compromised := 0, breach_date := ⟨2024, 1, 1⟩,
         data_classes := [], description := "", verified := false,
         source := "HaveIBeenPwned", created_at := 4 }) ∧
    (([rbGoodDate, rbBadDate].filter (domMatch "x.com")
        = [rbGoodDate] ++ rbBadDate :: []) ∧
     (∀ x ∈ [rbGoodDate], dateOk x = true) ∧
     dateOk rbBadDate = false ∧
     get_domain_breaches 4 (.http 200 [rbGoodDate, rbBadDate]) "x.com"
         ⟨[], 0⟩
       = (⟨(upsertMatches 4 0 [rbGoodDate] []).1,
           (upsertMatches 4 0 [rbGoodDate] []).2.1 + 1⟩,
          { breaches := [], count := 0,
            error := some ("Invalid isoformat string: "
              ++ rbBadDate.BreachDate.getD "2024-01-01") })) :=
  ⟨⟨by decide,
    by
      have h := C9_normalization_defaults_and_abort.1 "u0" 4 rbNoDate
        (by decide)
      simpa [rbNoDate] using h⟩,
   ⟨by decide, by decide, by decide,
    C9_normalization_defaults_and_abort.2 4 ⟨[], 0⟩ "x.com"
      [rbGoodDate, rbBadDate] [rbGoodDate] [] rbBadDate (by decide)
      (by decide) (by decide)⟩⟩

/-! ### Claim C1 -/

/-- A transport-level provider failure inside the comprehensive-scan body is
swallowed by `get_domain_breaches` itself (its catch-all handler), so the
per-domain step leaves the state untouched and still appends a `"success"`
entry with count 0 — the `except` branch of `comprehensive_scan` never
fires for provider failures. -/
lemma comprehensiveScanStep_failure (now : Nat) (msg : String)
    (dname : String) (st : AppState) :
    comprehensiveScanStep now (.failure msg) dname st
      = (st, { domain := dname, breaches_found := some 0,
               status := "success" }) := rfl

/-- The report entry appended by a comprehensive-scan step always carries
status `"success"` and the scan's count. -/
lemma comprehensiveScanStep_entry (now : Nat) (resp : ProviderResponse)
    (dname : String) (st : AppState) (n : Nat)
    (h : (get_domain_breaches now resp dname
      ⟨st.breaches, st.uuidCtr⟩).2.count = n) :
    (comprehensiveScanStep now resp dname st).2
      = { domain := dname, breaches_found := some n,
          status := "success" } := by
  simp only [comprehensiveScanStep, h]
  split <;> rfl

/-- State after a step whose scan found nothing: stores updated by the scan,
no alert appended. -/
lemma comprehensiveScanStep_state_zero (now : Nat) (resp : ProviderResponse)
    (dname : String) (st : AppState)
    (h : (get_domain_breaches now resp dname
      ⟨st.breaches, st.uuidCtr⟩).2.count = 0) :
    (comprehensiveScanStep now resp dname st).1
      = { breaches := (get_domain_breaches now resp dname
            ⟨st.breaches, st.uuidCtr⟩).1.breaches,
          domains := st.domains, alerts := st.alerts,
          uuidCtr := (get_domain_breaches now resp dname
            ⟨st.breaches, st.uuidCtr⟩).1.uuidCtr } := by
  simp [comprehensiveScanStep, h]

/-- State after a step whose scan found matches: stores updated by the scan
and exactly one active alert for the scanned domain appended. -/
lemma comprehensiveScanStep_state_pos (now : Nat) (resp : ProviderResponse)
    (dname : String) (st : AppState)
    (h : 0 < (get_domain_breaches now resp dname
      ⟨st.breaches, st.uuidCtr⟩).2.count) :
    ∃ x : Alert, x.domain = dname ∧ x.status = "active" ∧
      (comprehensiveScanStep now resp dname st).1
        = { breaches := (get_domain_breaches now resp dname
              ⟨st.breaches, st.uuidCtr⟩).1.breaches,
            domains := st.domains, alerts := st.alerts ++ [x],
            uuidCtr := (get_domain_breaches now resp dname
              ⟨st.breaches, st.uuidCtr⟩).1.uuidCtr + 1 } := by
  refine ⟨{ id := mkUuid (get_domain_breaches now resp dname
              ⟨st.breaches, st.uuidCtr⟩).1.uuidCtr,
            domain := dname,
            breach_name := "Multiple breaches detected",
            severity := if (get_domain_breaches now resp dname
              ⟨st.breaches, st.uuidCtr⟩).2.count > 5 then "high"
              else "medium",
            message := "Found " ++ toString (get_domain_breaches now resp
              dname ⟨st.breaches, st.uuidCtr⟩).2.count
              ++ " breaches for " ++ dname,
            created_at := now, status := "active" }, rfl, rfl, ?_⟩
  simp [comprehensiveScanStep, h]

/-- C1 counterexample: over the watchlist `[a.com, b.com, c.com]` where the
provider call for `b.com` fails at the transport level and the other two
succeed, the report marks ALL THREE domains `"success"` — `b.com` gets a
`"success"` entry with count 0, not the claimed `"error"` entry, because
`get_domain_breaches` swallows the failure before the comprehensive scan's
per-domain handler can see it. -/
theorem C1_counterexample :
    respsBFails "b.com" = .failure "HTTPSConnectionPool: read timed out" ∧
    (comprehensive_scan 7 respsBFails stThree).2
      = [{ domain := "a.com", breaches_found := some 1,
           status := "success" },
         { domain := "b.com", breaches_found := some 0,
           status := "success" },
         { domain := "c.com", breaches_found := some 0,
           status := "success" }] := by
  decide

/-- C1 amended: in a comprehensive scan over `[A, B, C]` where B's provider
call fails at the transport level and A's and C's succeed, the batch is not
aborted and the report has one entry per domain with A's and C's correct
match counts — but B's entry is marked `"success"` with count 0 (carrying
no error detail), not `"error"`: the failure is degraded inside the
per-domain scan itself. Alerts (if any) are appended only for A and C — at
most one each, none for B. -/
theorem C1_partial_failure_isolation (now : Nat)
    (resps : String → ProviderResponse) (st : AppState)
    (dA dB dC : MonitoredDomainRec) (catA catC : List RawBreach)
    (msg : String)
    (hdoms : st.domains = [dA, dB, dC])
    (hrA : resps dA.domain = .http 200 catA)
    (hrB : resps dB.domain = .failure msg)
    (hrC : resps dC.domain = .http 200 catC)
    (hpA : ∀ b ∈ catA.filter (domMatch dA.domain), dateOk b = true)
    (hpC : ∀ b ∈ catC.filter (domMatch dC.domain), dateOk b = true) :
    ((comprehensive_scan now resps st).2
      = [{ domain := dA.domain,
           breaches_found :=
             some (catA.filter (domMatch dA.domain)).length,
           status := "success" },
         { domain := dB.domain, breaches_found := some 0,
           status := "success" },
         { domain := dC.domain,
           breaches_found :=
             some (catC.filter (domMatch dC.domain)).length,
           status := "success" }]) ∧
    (∃ aA aC : List Alert,
      (comprehensive_scan now resps st).1.alerts
        = (st.alerts ++ aA) ++ aC ∧
      ((catA.filter (domMatch dA.domain)).length = 0 → aA = []) ∧
      (0 < (catA.filter (domMatch dA.domain)).length →
        ∃ x, aA = [x] ∧ x.domain = dA.domain ∧ x.status = "active") ∧
      ((catC.filter (domMatch dC.domain)).length = 0 → aC = []) ∧
      (0 < (catC.filter (domMatch dC.domain)).length →
        ∃ x, aC = [x] ∧ x.domain = dC.domain ∧ x.status = "active")) := by
  have hkey : comprehensive_scan now resps st
      = ((comprehensiveScanStep now (resps dC.domain) dC.domain
            (comprehensiveScanStep now (resps dB.domain) dB.domain
              (comprehensiveScanStep now (resps dA.domain) dA.domain
                st).1).1).1,
         [(comprehensiveScanStep now (resps dA.domain) dA.domain st).2,
          (comprehensiveScanStep now (resps dB.domain) dB.domain
            (comprehensiveScanStep now (resps dA.domain) dA.domain
              st).1).2,
          (comprehensiveScanStep now (resps dC.domain) dC.domain
            (comprehensiveScanStep now (resps dB.domain) dB.domain
              (comprehensiveScanStep now (resps dA.domain) dA.domain
                st).1).1).2]) := by
    unfold comprehensive_scan
    rw [hdoms]
    rfl
  rw [hrA, hrB, hrC] at hkey
  set s1 := (comprehensiveScanStep now (.http 200 catA) dA.domain st).1
    with hs1def
  have hsB := comprehensiveScanStep_failure now msg dB.domain s1
  have hs2 : (comprehensiveScanStep now (.failure msg) dB.domain s1).1
      = s1 := by rw [hsB]
  rw [hs2] at hkey
  have hcntA : (get_domain_breaches now (.http 200 catA) dA.domain
      ⟨st.breaches, st.uuidCtr⟩).2.count
      = (catA.filter (domMatch dA.domain)).length := by
    rw [get_domain_breaches_success now catA dA.domain _ hpA]
  have hcntB : (get_domain_breaches now (.failure msg) dB.domain
      ⟨s1.breaches, s1.uuidCtr⟩).2.count = 0 := rfl
  have hcntC : (get_domain_breaches now (.http 200 catC) dC.domain
      ⟨s1.breaches, s1.uuidCtr⟩).2.count
      = (catC.filter (domMatch dC.domain)).length := by
    rw [get_domain_breaches_success now catC dC.domain _ hpC]
  have hE1 := comprehensiveScanStep_entry now (.http 200 catA) dA.domain
    st _ hcntA
  have hE2 := comprehensiveScanStep_entry now (.failure msg) dB.domain
    s1 0 hcntB
  have hE3 := comprehensiveScanStep_entry now (.http 200 catC) dC.domain
    s1 _ hcntC
  constructor
  · simp only [hkey, hE1, hE2, hE3]
  · have hAalt : ∃ aA : List Alert, s1.alerts = st.alerts ++ aA ∧
        ((catA.filter (domMatch dA.domain)).length = 0 → aA = []) ∧
        (0 < (catA.filter (domMatch dA.domain)).length →
          ∃ x, aA = [x] ∧ x.domain = dA.domain ∧ x.status = "active") := by
      rcases Nat.eq_zero_or_pos
          (catA.filter (domMatch dA.domain)).length with h0 | hpos
      · refine ⟨[], ?_, fun _ => rfl, fun hc => absurd hc (by omega)⟩
        rw [hs1def, comprehensiveScanStep_state_zero now (.http 200 catA)
          dA.domain st (hcntA.trans h0)]
        simp
      · obtain ⟨x, hxd, hxs, hst⟩ :=
          comprehensiveScanStep_state_pos now (.http 200 catA) dA.domain
            st (by rw [hcntA]; exact hpos)
        refine ⟨[x], ?_, fun hc => absurd hc (by omega),
          fun _ => ⟨x, rfl, hxd, hxs⟩⟩
        rw [hs1def, hst]
    obtain ⟨aA, haA, haA0, haAp⟩ := hAalt
    have hCalt : ∃ aC : List Alert,
        (comprehensiveScanStep now (.http 200 catC) dC.domain s1).1.alerts
          = s1.alerts ++ aC ∧
        ((catC.filter (domMatch dC.domain)).length = 0 → aC = []) ∧
        (0 < (catC.filter (domMatch dC.domain)).length →
          ∃ x, aC = [x] ∧ x.domain = dC.domain ∧ x.status = "active") := by
      rcases Nat.eq_zero_or_pos
          (catC.filter (domMatch dC.domain)).length with h0 | hpos
      · refine ⟨[], ?_, fun _ => rfl, fun hc => absurd hc (by omega)⟩
        rw [comprehensiveScanStep_state_zero now (.http 200 catC)
          dC.domain s1 (hcntC.trans h0)]
        simp
      · obtain ⟨x, hxd, hxs, hst⟩ :=
          comprehensiveScanStep_state_pos now (.http 200 catC) dC.domain
            s1 (by rw [hcntC]; exact hpos)
        refine ⟨[x], ?_, fun hc => absurd hc (by omega),
          fun _ => ⟨x, rfl, hxd, hxs⟩⟩
        rw [hst]
    obtain ⟨aC, haC, haC0, haCp⟩ := hCalt
    refine ⟨aA, aC, ?_, haA0, haAp, haC0, haCp⟩
    have : (comprehensive_scan now resps st).1.alerts
        = (comprehensiveScanStep now (.http 200 catC) dC.domain
            s1).1.alerts := by
      rw [hkey]
    rw [this, haC, haA, List.append_assoc]

/-- Witness for C1 at the concrete three-domain scenario in which `b.com`'s
provider call times out. -/
theorem C1_partial_failure_isolation_witness :
    ((comprehensive_scan 7 respsBFails stThree).2
      = [{ domain := "a.com",
           breaches_found :=
             some (([rbA 1].filter (domMatch "a.com")).length),
           status := "success" },
         { domain := "b.com", breaches_found := some 0,
           status := "success" },
         { domain := "c.com",
           breaches_found :=
             some ((([] : List RawBreach).filter
               (domMatch "c.com")).length),
           status := "success" }]) ∧
    (∃ aA aC : List Alert,
      (comprehensive_scan 7 respsBFails stThree).1.alerts
        = (stThree.alerts ++ aA) ++ aC ∧
      (([rbA 1].filter (domMatch "a.com")).length = 0 → aA = []) ∧
      (0 < ([rbA 1].filter (domMatch "a.com")).length →
        ∃ x, aA = [x] ∧ x.domain = "a.com" ∧ x.status = "active") ∧
      ((([] : List RawBreach).filter (domMatch "c.com")).length = 0 →
        aC = []) ∧
      (0 < (([] : List RawBreach).filter (domMatch "c.com")).length →
        ∃ x, aC = [x] ∧ x.domain = "c.com" ∧ x.status = "active")) :=
  C1_partial_failure_isolation 7 respsBFails stThree
    { mongoId := "m1", id := "u1", domain := "a.com",
      email_patterns := [], created_at := 0, status := "active" }
    { mongoId := "m2", id := "u2", domain := "b.com",
      email_patterns := [], created_at := 0, status := "active" }
    { mongoId := "m3", id := "u3", domain := "c.com",
      email_patterns := [], created_at := 0, status := "active" }
    [rbA 1] [] "HTTPSConnectionPool: read timed out"
    (by decide) (by decide) (by decide) (by decide) (by decide)
    (by decide)
